import Mathlib

/-!
Verification of the dandi-archive web-client fragment: a Vuex store
aggregator (`src/web/src/store/index.js`) and the ownership/collaborator
authorization model described by the specification around the end-to-end
test `src/test/src/tests/dandisetLandingPage.test.js`.

The store aggregator is embedded directly from the source.  The Ownership
State Controller, Session Context and Dataset Registry are not present
under `src/` (only the spec and the e2e test describe them), so they are
modelled from the spec, definition by definition, each marked
`Modelled from the spec:`.
-/

namespace DandiArchive

/-- Modelled from the spec: an Identity is a unique handle (e.g. an email),
equality by handle.  The Identity Service internals are absent from src. -/
abbrev Identity := String

/-- Modelled from the spec: the error taxonomy of section 7. -/
inductive OwnerError where
  | AuthenticationError
  | ForbiddenError
  | NotFoundError
  | InvariantViolationError
  | NetworkError
  | ServerError
  | ConcurrentCommitError
deriving DecidableEq

/-- Modelled from the spec: transport/server errors are retryable, the
pending edit is preserved for them; all other commit failures discard it. -/
def OwnerError.retryable : OwnerError → Bool
  | .NetworkError => true
  | .ServerError => true
  | _ => false

/-- Modelled from the spec: a Dataset has `id`, `name`, `description`,
`ownerSet : set<Identity>` and a monotonic `version`. -/
structure Dataset where
  id : String
  name : String
  description : String
  ownerSet : Finset Identity
  version : Nat
deriving DecidableEq

/-- Modelled from the spec: the ephemeral client-only staging area
`{ datasetId, baseVersion, additions, removals }`. -/
structure PendingOwnerEdit where
  datasetId : String
  baseVersion : Nat
  additions : Finset Identity
  removals : Finset Identity
deriving DecidableEq

/-- Modelled from the spec: a Session binds zero or one Identity to the
browser context. -/
structure Session where
  activeIdentity : Option Identity
  credentialsPresent : Bool
deriving DecidableEq

/-- Modelled from the spec: the authoritative state held by the external
Identity Service and Dataset Registry: registered users and datasets. -/
structure ServerState where
  users : List Identity
  datasets : List Dataset
deriving DecidableEq

/-- Modelled from the spec: the client-resident state: the Session Context
plus the Ownership State Controller's cached snapshots and its at most one
open PendingOwnerEdit. -/
structure ClientState where
  session : Session
  cache : List (String × Dataset)
  pending : Option PendingOwnerEdit
deriving DecidableEq

/-- Modelled from the spec: Identity Service `register`. -/
def registerUser (server : ServerState) (ident : Identity) : ServerState :=
  { server with users := ident :: server.users }

/-- Modelled from the spec: Registry lookup `getDataset(id)`. -/
def findDataset (server : ServerState) (id : String) : Option Dataset :=
  server.datasets.find? (fun d => d.id == id)

/-- Modelled from the spec: replace the registry's stored snapshot of the
dataset with the given id. -/
def updateDataset (server : ServerState) (d' : Dataset) : ServerState :=
  { server with
    datasets := server.datasets.map (fun d => if d.id == d'.id then d' else d) }

/-- Modelled from the spec: `createDataset(name, description, creator)`
creates the dataset with the creating identity as sole initial owner. -/
def createDataset (server : ServerState) (id name description : String)
    (creator : Identity) : ServerState × Dataset :=
  let d : Dataset :=
    { id := id, name := name, description := description
      ownerSet := {creator}, version := 1 }
  ({ server with datasets := d :: server.datasets }, d)

/-- Look up the controller's last-loaded snapshot for a dataset id. -/
def lookupCache (cache : List (String × Dataset)) (id : String) :
    Option Dataset :=
  (cache.find? (fun p => p.1 == id)).map Prod.snd

/-- Overwrite (or create) the cached snapshot for a dataset id. -/
def updateCacheEntry (cache : List (String × Dataset)) (id : String)
    (d : Dataset) : List (String × Dataset) :=
  (id, d) :: cache.filter (fun p => p.1 != id)

/-- Modelled from the spec: Session Context `currentIdentity()`, a pure
read. -/
def currentIdentity (cs : ClientState) : Option Identity :=
  cs.session.activeIdentity

/-- Modelled from the spec: `login` replaces any prior session and clears
any PendingOwnerEdit left by a previous identity; it fails with
`AuthenticationError` iff the Identity Service rejects the credentials
(here abstracted as the `credsOk` outcome). -/
def login (cs : ClientState) (ident : Identity) (credsOk : Bool) :
    Except OwnerError ClientState :=
  if credsOk then
    .ok { session := { activeIdentity := some ident, credentialsPresent := true }
          cache := cs.cache, pending := none }
  else
    .error .AuthenticationError

/-- Modelled from the spec: `logout` clears the active identity and all
browser-held credentials, and leaves no residual pending edit; it always
succeeds locally, but the operation is reported as failed when the
server-side invalidation fails (the `serverOk` outcome). -/
def logout (cs : ClientState) (serverOk : Bool) : ClientState × Bool :=
  ({ session := { activeIdentity := none, credentialsPresent := false }
     cache := cs.cache, pending := none }, serverOk)

/-- Modelled from the spec: `loadOwners(datasetId)` fetches the
authoritative snapshot and always overwrites the local cache entry;
`NotFoundError` if the dataset does not exist. -/
def loadOwners (server : ServerState) (cs : ClientState) (id : String) :
    Except OwnerError ClientState :=
  match findDataset server id with
  | some d => .ok { cs with cache := updateCacheEntry cs.cache id d }
  | none => .error .NotFoundError

/-- Modelled from the spec: `beginEdit(datasetId)` requires the current
identity to be a member of the last-loaded ownerSet, otherwise fails with
`ForbiddenError`; on success it captures `baseVersion` from the last
loaded snapshot and opens a fresh PendingOwnerEdit (discarding any prior
one). -/
def beginEdit (cs : ClientState) (id : String) : Except OwnerError ClientState :=
  match cs.session.activeIdentity, lookupCache cs.cache id with
  | some ident, some d =>
      if ident ∈ d.ownerSet then
        .ok { cs with
              pending := some { datasetId := id, baseVersion := d.version
                                additions := ∅, removals := ∅ } }
      else
        .error .ForbiddenError
  | _, _ => .error .ForbiddenError

/-- The owner set that would result from applying a pending edit's delta
to a base owner set: removals are taken out, additions put in. -/
def stagedResult (base : Finset Identity) (e : PendingOwnerEdit) :
    Finset Identity :=
  (base \ e.removals) ∪ e.additions

/-- Modelled from the spec: `stageAddition` is a pure local mutation of
the pending edit. -/
def stageAddition (e : PendingOwnerEdit) (ident : Identity) :
    PendingOwnerEdit :=
  { e with additions := insert ident e.additions }

/-- Modelled from the spec: `stageRemoval` is a pure local mutation; if
the resulting owner count against the base snapshot would be zero it
fails with `InvariantViolationError`, with no network call involved. -/
def stageRemoval (base : Finset Identity) (e : PendingOwnerEdit)
    (ident : Identity) : Except OwnerError PendingOwnerEdit :=
  let e' : PendingOwnerEdit := { e with removals := insert ident e.removals }
  if stagedResult base e' = ∅ then .error .InvariantViolationError
  else .ok e'

/-- Modelled from the spec: the Registry's `commitOwnerDelta`: applies the
additions/removals atomically to the *current* server-side owner set (a
set-delta merge, not a whole-set replace), rejects callers that are no
longer owners with `ForbiddenError`, rejects a resulting empty owner set
with `InvariantViolationError`, bumps the version and returns the new
snapshot. -/
def commitOwnerDelta (server : ServerState) (caller : Identity) (id : String)
    (additions removals : Finset Identity) :
    Except OwnerError (ServerState × Dataset) :=
  match findDataset server id with
  | none => .error .NotFoundError
  | some d =>
      if caller ∈ d.ownerSet then
        let newSet := (d.ownerSet \ removals) ∪ additions
        if newSet = ∅ then .error .InvariantViolationError
        else
          let d' : Dataset := { d with ownerSet := newSet, version := d.version + 1 }
          .ok (updateDataset server d', d')
      else
        .error .ForbiddenError

/-- Modelled from the spec: the outcome of the single network round trip a
`commit` performs. -/
inductive NetOutcome where
  | ok
  | netFail
  | serverFail
deriving DecidableEq

instance instDecEqExcept {ε α : Type} [DecidableEq ε] [DecidableEq α] :
    DecidableEq (Except ε α)
  | .error e, .error f =>
      if h : e = f then isTrue (congrArg Except.error h)
      else isFalse (fun hh => h (Except.error.inj hh))
  | .error _, .ok _ => isFalse Except.noConfusion
  | .ok _, .error _ => isFalse Except.noConfusion
  | .ok a, .ok b =>
      if h : a = b then isTrue (congrArg Except.ok h)
      else isFalse (fun hh => h (Except.ok.inj hh))

/-- Modelled from the spec: the result of a client `commit`: the new
registry state, the new client state, and the typed outcome. -/
structure CommitResult where
  server : ServerState
  client : ClientState
  result : Except OwnerError Dataset
deriving DecidableEq

/-- Modelled from the spec: the Controller's `commit(edit)`.  On transport
or server failure the PendingOwnerEdit is preserved unchanged so the same
commit can be retried; on success the cache is replaced and the edit
discarded; on a non-retryable registry rejection (e.g. `ForbiddenError`
because the caller lost ownership) the edit is discarded. -/
def commit (server : ServerState) (cs : ClientState) (e : PendingOwnerEdit)
    (net : NetOutcome) : CommitResult :=
  match net with
  | .netFail => { server := server, client := cs, result := .error .NetworkError }
  | .serverFail => { server := server, client := cs, result := .error .ServerError }
  | .ok =>
      match cs.session.activeIdentity with
      | none =>
          { server := server, client := { cs with pending := none }
            result := .error .ForbiddenError }
      | some caller =>
          match commitOwnerDelta server caller e.datasetId e.additions e.removals with
          | .ok (server', d') =>
              { server := server'
                client := { cs with
                            cache := updateCacheEntry cs.cache e.datasetId d'
                            pending := none }
                result := .ok d' }
          | .error err =>
              if err.retryable then
                { server := server, client := cs, result := .error err }
              else
                { server := server, client := { cs with pending := none }
                  result := .error err }

/-- Modelled from the spec: `cancelEdit` discards the pending edit with no
network call; idempotent. -/
def cancelEdit (cs : ClientState) : ClientState :=
  { cs with pending := none }

/-!
Shallow embedding of `src/web/src/store/index.js`.  The three imported
module objects (`@/store/girder`, `@/store/myDandisets`, `@/store/stats`)
are not part of this fragment; each is represented by a distinct token,
and equality of tokens stands for object identity of the imported module
(same state fields, mutations and actions, since it is the same object).
-/

/-- The three module objects imported at the top of
`src/web/src/store/index.js`. -/
inductive ModuleObject where
  | girder
  | myDandisets
  | stats
deriving DecidableEq

/-- A Vuex store as far as this fragment exercises it: the ordered
key-to-module bindings of its `modules` option. -/
structure VuexStore where
  modules : List (String × ModuleObject)
deriving DecidableEq

/-- The default export of `src/web/src/store/index.js`:
`new Vuex.Store({ modules: { girder, publicDandisets: myDandisets,
myDandisets, stats } })`. -/
def storeDefault : VuexStore :=
  { modules :=
      [("girder", ModuleObject.girder),
       ("publicDandisets", ModuleObject.myDandisets),
       ("myDandisets", ModuleObject.myDandisets),
       ("stats", ModuleObject.stats)] }

/-- The module object registered under a key of the store, if any. -/
def lookupModule (s : VuexStore) (key : String) : Option ModuleObject :=
  (s.modules.find? (fun p => p.1 == key)).map Prod.snd

/-! Concrete fixtures used by the scenario theorems and the witnesses. -/

def wAlice : Identity := "alice@test"

def wBob : Identity := "bob@test"

def wCarol : Identity := "carol@test"

def wDataset : Dataset :=
  { id := "d1", name := "n", description := "x"
    ownerSet := {wAlice}, version := 1 }

def wServer : ServerState :=
  { users := [wBob, wAlice], datasets := [wDataset] }

def wClient : ClientState :=
  { session := { activeIdentity := some wAlice, credentialsPresent := true }
    cache := [(wDataset.id, wDataset)], pending := none }

def wEdit : PendingOwnerEdit :=
  { datasetId := wDataset.id, baseVersion := 1, additions := ∅, removals := ∅ }

def wClientBob : ClientState :=
  { session := { activeIdentity := some wBob, credentialsPresent := true }
    cache := [(wDataset.id, wDataset)], pending := some wEdit }

def wEditAddBob : PendingOwnerEdit := stageAddition wEdit wBob

/-- The dataset snapshot the registry returns for the first concrete
delta-commit of the concurrent-edit scenario (owner set grown by wBob,
version bumped). -/
def c3D1 : Dataset :=
  { id := "d1", name := "n", description := "x"
    ownerSet := {wAlice, wBob}, version := 2 }

/-- Modelled from the spec: the concurrent-edit scenario of testable
property 3: run two owner-delta commits in sequence against `wServer`,
both issued from base version 1 by `wAlice`; returns the final owner set
when both succeed. -/
def c3TwoCommits (adds1 adds2 : Finset Identity) : Option (Finset Identity) :=
  match commitOwnerDelta wServer wAlice wDataset.id adds1 ∅ with
  | .error _ => none
  | .ok (s1, _) =>
      match commitOwnerDelta s1 wAlice wDataset.id adds2 ∅ with
      | .error _ => none
      | .ok (_, d2) => some d2.ownerSet

/-! The end-to-end scenario of the source test
`dandisetLandingPage.test.js` (`add an owner to a dandiset`). -/

def ownerA : Identity := "owner@test"

def otherB : Identity := "other@test"

/-- Server state after the test's registrations: `otherB` registered
first, then (after logout and cookie clearing) `ownerA`. -/
def c4ServerUsers : ServerState :=
  registerUser (registerUser { users := [], datasets := [] } otherB) ownerA

def c4DatasetId : String := "ds-1"

/-- The `registerDandiset` step, performed by the logged-in `ownerA`. -/
def c4Registered : ServerState × Dataset :=
  createDataset c4ServerUsers c4DatasetId ("name 1") ("description 1") ownerA

/-- The client flow of the source test after registration: `ownerA` logs
in in a fresh browser context, the landing page loads the owners, the
Manage panel opens (`beginEdit`), `otherB` is staged for addition, and
Save Changes commits.  Returns the dataset snapshot the UI renders
afterwards, when every step succeeds. -/
def c4FinalSnapshot : Option Dataset :=
  let server := c4Registered.1
  let cs0 : ClientState :=
    { session := { activeIdentity := none, credentialsPresent := false }
      cache := [], pending := none }
  match login cs0 ownerA true with
  | .error _ => none
  | .ok cs1 =>
      match loadOwners server cs1 c4DatasetId with
      | .error _ => none
      | .ok cs2 =>
          match beginEdit cs2 c4DatasetId with
          | .error _ => none
          | .ok cs3 =>
              match cs3.pending with
              | none => none
              | some e =>
                  let e' := stageAddition e otherB
                  match (commit server { cs3 with pending := some e' } e'
                      NetOutcome.ok).result with
                  | .ok d => some d
                  | .error _ => none

/-! Helper lemmas shared by the claim theorems. -/

/-- A successful `commitOwnerDelta` found the dataset, checked the caller
was a current owner, applied the delta to the current server-side owner
set, checked non-emptiness and bumped the version. -/
theorem commitOwnerDelta_ok_iff (server : ServerState) (caller : Identity)
    (id : String) (adds rems : Finset Identity) (server' : ServerState)
    (d' : Dataset)
    (h : commitOwnerDelta server caller id adds rems = .ok (server', d')) :
    ∃ d, findDataset server id = some d ∧ caller ∈ d.ownerSet ∧
      d'.ownerSet = (d.ownerSet \ rems) ∪ adds ∧ d'.ownerSet ≠ ∅ ∧
      d'.version = d.version + 1 ∧ server' = updateDataset server d' := by
  unfold commitOwnerDelta at h
  cases hfind : findDataset server id with
  | none => rw [hfind] at h; simp at h
  | some d =>
      rw [hfind] at h
      dsimp only at h
      by_cases hmem : caller ∈ d.ownerSet
      · rw [if_pos hmem] at h
        by_cases hempty : (d.ownerSet \ rems) ∪ adds = ∅
        · rw [if_pos hempty] at h; simp at h
        · rw [if_neg hempty] at h
          rw [Except.ok.injEq, Prod.mk.injEq] at h
          obtain ⟨hs, hd⟩ := h
          refine ⟨d, rfl, hmem, ?_, ?_, ?_, ?_⟩
          · rw [← hd]
          · rw [← hd]; exact hempty
          · rw [← hd]
          · rw [← hs, ← hd]
      · rw [if_neg hmem] at h
        simp at h

/-- Exhaustive case analysis of a client `commit`. -/
theorem commit_cases (server : ServerState) (cs : ClientState)
    (e : PendingOwnerEdit) (net : NetOutcome) :
    (net = .netFail ∧
      commit server cs e net = ⟨server, cs, .error .NetworkError⟩) ∨
    (net = .serverFail ∧
      commit server cs e net = ⟨server, cs, .error .ServerError⟩) ∨
    (net = .ok ∧ cs.session.activeIdentity = none ∧
      commit server cs e net
        = ⟨server, { cs with pending := none }, .error .ForbiddenError⟩) ∨
    (∃ caller err, net = .ok ∧ cs.session.activeIdentity = some caller ∧
      commitOwnerDelta server caller e.datasetId e.additions e.removals
        = .error err ∧
      commit server cs e net
        = if err.retryable then ⟨server, cs, .error err⟩
          else ⟨server, { cs with pending := none }, .error err⟩) ∨
    (∃ caller server' d', net = .ok ∧
      cs.session.activeIdentity = some caller ∧
      commitOwnerDelta server caller e.datasetId e.additions e.removals
        = .ok (server', d') ∧
      commit server cs e net
        = ⟨server', { cs with
                      cache := updateCacheEntry cs.cache e.datasetId d',
                      pending := none }, .ok d'⟩) := by
  cases net with
  | netFail => exact Or.inl ⟨rfl, rfl⟩
  | serverFail => exact Or.inr (Or.inl ⟨rfl, rfl⟩)
  | ok =>
      cases hid : cs.session.activeIdentity with
      | none =>
          refine Or.inr (Or.inr (Or.inl ⟨rfl, rfl, ?_⟩))
          simp [commit, hid]
      | some caller =>
          cases hcd : commitOwnerDelta server caller e.datasetId
              e.additions e.removals with
          | error err =>
              refine Or.inr (Or.inr (Or.inr (Or.inl
                ⟨caller, err, rfl, rfl, hcd, ?_⟩)))
              simp [commit, hid, hcd]
          | ok p =>
              obtain ⟨server', d'⟩ := p
              refine Or.inr (Or.inr (Or.inr (Or.inr
                ⟨caller, server', d', rfl, rfl, hcd, ?_⟩)))
              simp [commit, hid, hcd]

/-- The registry update `updateDataset` keeps every stored owner set nonempty when the new
snapshot's owner set is nonempty. -/
theorem updateDataset_preserves_nonempty (server : ServerState) (d' : Dataset)
    (hd' : d'.ownerSet.Nonempty)
    (hall : ∀ d ∈ server.datasets, d.ownerSet.Nonempty) :
    ∀ d ∈ (updateDataset server d').datasets, d.ownerSet.Nonempty := by
  intro d hd
  simp only [updateDataset, List.mem_map] at hd
  obtain ⟨a, ha, hda⟩ := hd
  by_cases hid : (a.id == d'.id) = true
  · rw [if_pos hid] at hda; rw [← hda]; exact hd'
  · rw [if_neg hid] at hda; rw [← hda]; exact hall a ha

/-! The claim theorems. -/

/-- Claim C1: for every dataset and every sequence of `stageRemoval` calls
on a PendingOwnerEdit, `commit` never succeeds in producing an empty
ownerSet; a `stageRemoval` whose result would leave zero owners fails with
`InvariantViolationError` (a purely local check — `stageRemoval` performs
no network call in the model); a registry whose datasets all have at least
one owner keeps that property across any `commit`; and a dataset is
created with a nonempty (singleton) owner set. -/
theorem ownerSet_nonempty_invariant :
    (∀ (base : Finset Identity) (e : PendingOwnerEdit) (ident : Identity),
        stagedResult base { e with removals := insert ident e.removals } = ∅ →
        stageRemoval base e ident = .error .InvariantViolationError) ∧
    (∀ (base : Finset Identity) (e : PendingOwnerEdit) (ident : Identity)
        (e' : PendingOwnerEdit),
        stageRemoval base e ident = .ok e' → (stagedResult base e').Nonempty) ∧
    (∀ (server : ServerState) (cs : ClientState) (e : PendingOwnerEdit)
        (net : NetOutcome) (d' : Dataset),
        (commit server cs e net).result = .ok d' → d'.ownerSet.Nonempty) ∧
    (∀ (server : ServerState) (cs : ClientState) (e : PendingOwnerEdit)
        (net : NetOutcome),
        (∀ d ∈ server.datasets, d.ownerSet.Nonempty) →
        ∀ d ∈ (commit server cs e net).server.datasets, d.ownerSet.Nonempty) ∧
    (∀ (server : ServerState) (id name description : String)
        (creator : Identity),
        ((createDataset server id name description creator).2.ownerSet).Nonempty) := by
  refine ⟨?_, ?_, ?_, ?_, ?_⟩
  · intro base e ident h
    simp [stageRemoval, h]
  · intro base e ident e' h
    unfold stageRemoval at h
    by_cases hempty :
        stagedResult base { e with removals := insert ident e.removals } = ∅
    · simp [hempty] at h
    · simp [hempty] at h
      rw [← h]
      exact Finset.nonempty_iff_ne_empty.2 hempty
  · intro server cs e net d' h
    rcases commit_cases server cs e net with
      ⟨_, hc⟩ | ⟨_, hc⟩ | ⟨_, _, hc⟩ | ⟨caller, err, _, _, _, hc⟩ |
      ⟨caller, server', d'', _, _, hcd, hc⟩
    · rw [hc] at h; simp at h
    · rw [hc] at h; simp at h
    · rw [hc] at h; simp at h
    · rw [hc] at h
      by_cases hr : err.retryable = true
      · rw [if_pos hr] at h; simp at h
      · rw [if_neg hr] at h; simp at h
    · rw [hc] at h
      simp only [Except.ok.injEq] at h
      obtain ⟨d0, _, _, _, hne, _, _⟩ :=
        commitOwnerDelta_ok_iff _ _ _ _ _ _ _ hcd
      rw [← h]
      exact Finset.nonempty_iff_ne_empty.2 hne
  · intro server cs e net hall d hd
    rcases commit_cases server cs e net with
      ⟨_, hc⟩ | ⟨_, hc⟩ | ⟨_, _, hc⟩ | ⟨caller, err, _, _, _, hc⟩ |
      ⟨caller, server', d'', _, _, hcd, hc⟩
    · rw [hc] at hd; exact hall d hd
    · rw [hc] at hd; exact hall d hd
    · rw [hc] at hd; exact hall d hd
    · rw [hc] at hd
      by_cases hr : err.retryable = true
      · rw [if_pos hr] at hd; exact hall d hd
      · rw [if_neg hr] at hd; exact hall d hd
    · rw [hc] at hd
      dsimp only at hd
      obtain ⟨d0, _, _, _, hne, _, hs⟩ :=
        commitOwnerDelta_ok_iff _ _ _ _ _ _ _ hcd
      rw [hs] at hd
      exact updateDataset_preserves_nonempty server d''
        (Finset.nonempty_iff_ne_empty.2 hne) hall d hd
  · intro server id name description creator
    exact ⟨creator, by simp [createDataset]⟩

/-- Witness for C1 at concrete inputs: removing the sole owner of
`wDataset` from a fresh edit is rejected locally with
`InvariantViolationError`, and a concrete successful commit yields a
nonempty owner set. -/
theorem ownerSet_nonempty_invariant_check :
    stageRemoval wDataset.ownerSet wEdit wAlice
      = .error .InvariantViolationError ∧
    c3D1.ownerSet.Nonempty :=
  ⟨ownerSet_nonempty_invariant.1 wDataset.ownerSet wEdit wAlice (by decide),
   ownerSet_nonempty_invariant.2.2.1 wServer wClient wEditAddBob
     NetOutcome.ok c3D1 (by decide)⟩

/-- Claim C2: `beginEdit` succeeds iff the session's current identity is a
member of the last-loaded ownerSet for the dataset; any identity not in
that set gets `ForbiddenError` and no PendingOwnerEdit is created (the
client state is returned unchanged only on success, where the opened edit
is exactly the fresh one based on the loaded snapshot). -/
theorem beginEdit_authorization_gate (cs : ClientState) (id : String)
    (ident : Identity) (d : Dataset)
    (hid : cs.session.activeIdentity = some ident)
    (hcache : lookupCache cs.cache id = some d) :
    ((∃ cs', beginEdit cs id = .ok cs') ↔ ident ∈ d.ownerSet) ∧
    (ident ∉ d.ownerSet → beginEdit cs id = .error .ForbiddenError) ∧
    (∀ cs', beginEdit cs id = .ok cs' →
        cs' = { cs with
                pending := some { datasetId := id, baseVersion := d.version,
                                  additions := ∅, removals := ∅ } }) := by
  have hb : beginEdit cs id
      = if ident ∈ d.ownerSet then
          .ok { cs with
                pending := some { datasetId := id, baseVersion := d.version,
                                  additions := ∅, removals := ∅ } }
        else .error .ForbiddenError := by
    unfold beginEdit
    rw [hid, hcache]
  by_cases hmem : ident ∈ d.ownerSet
  · rw [if_pos hmem] at hb
    refine ⟨⟨fun _ => hmem, fun _ => ⟨_, hb⟩⟩, fun hn => absurd hmem hn, ?_⟩
    intro cs' h
    rw [hb] at h
    exact (Except.ok.inj h).symm
  · rw [if_neg hmem] at hb
    refine ⟨⟨?_, fun hmem2 => absurd hmem2 hmem⟩, fun _ => hb, ?_⟩
    · rintro ⟨cs', h⟩
      rw [hb] at h
      simp at h
    · intro cs' h
      rw [hb] at h
      simp at h

/-- Witness for C2 at concrete inputs: with `wDataset` (owners `{wAlice}`)
cached, `beginEdit` succeeds for the logged-in owner `wAlice`. -/
theorem beginEdit_authorization_gate_check :
    (∃ cs', beginEdit wClient wDataset.id = .ok cs') ↔
      wAlice ∈ wDataset.ownerSet :=
  (beginEdit_authorization_gate wClient wDataset.id wAlice wDataset
    (by decide) (by decide)).1

/-- Claim C3: commit applies the edit's addition/removal sets as a delta
to the *current* server-side owner set, not as a whole-set replacement;
concretely, starting from owners `{wAlice}` at version 1, the edits add
`wBob` and add `wCarol`, both from base version 1, committed in either
order both succeed and yield the same final owner set
`{wAlice, wBob, wCarol}`. -/
theorem commit_delta_merge_no_lost_update :
    (∀ (server : ServerState) (caller : Identity) (id : String)
        (adds rems : Finset Identity) (server' : ServerState) (d' d : Dataset),
        findDataset server id = some d →
        commitOwnerDelta server caller id adds rems = .ok (server', d') →
        d'.ownerSet = (d.ownerSet \ rems) ∪ adds) ∧
    c3TwoCommits {wBob} {wCarol} = some {wAlice, wBob, wCarol} ∧
    c3TwoCommits {wCarol} {wBob} = some {wAlice, wBob, wCarol} := by
  have horder2 : c3TwoCommits {wCarol} {wBob} = some {wAlice, wCarol, wBob} := by
    decide
  have hsets : ({wAlice, wCarol, wBob} : Finset Identity)
      = {wAlice, wBob, wCarol} := by decide
  refine ⟨?_, by decide, horder2.trans (congrArg some hsets)⟩
  intro server caller id adds rems server' d' d hfind h
  obtain ⟨d0, hfind0, _, heq, _, _, _⟩ :=
    commitOwnerDelta_ok_iff _ _ _ _ _ _ _ h
  rw [hfind] at hfind0
  cases Option.some.inj hfind0
  exact heq

/-- Witness for C3 at concrete inputs: the first concrete delta-commit of
the scenario produces exactly the base owner set with `wBob` merged in. -/
theorem commit_delta_merge_no_lost_update_check :
    c3D1.ownerSet = (wDataset.ownerSet \ ∅) ∪ {wBob} :=
  commit_delta_merge_no_lost_update.1 wServer wAlice wDataset.id {wBob} ∅
    (updateDataset wServer c3D1) c3D1 wDataset (by decide) (by decide)

/-- Claim C4: the end-to-end workflow of the source test: owner A is
registered and registers dataset D as its sole owner, the other user B is
registered in a fresh session; B is absent and A present among D's
displayed owner chips; A opens the manage panel, stages B for addition
and saves; afterwards both A and B appear as owners of D. -/
theorem end_to_end_add_owner :
    c4Registered.2.ownerSet = {ownerA} ∧
    otherB ∈ c4ServerUsers.users ∧ ownerA ∈ c4ServerUsers.users ∧
    otherB ∉ c4Registered.2.ownerSet ∧
    ownerA ∈ c4Registered.2.ownerSet ∧
    c4FinalSnapshot.map Dataset.ownerSet = some {ownerA, otherB} := by
  decide

/-- Claim C5: a commit failing with `NetworkError` or `ServerError`
preserves the client state (and hence the PendingOwnerEdit) unchanged so
the same commit can be retried; a commit failing with `ForbiddenError`
because the caller is no longer an owner at commit time discards the
PendingOwnerEdit. -/
theorem commit_failure_edit_disposition (server : ServerState)
    (cs : ClientState) (e : PendingOwnerEdit) (caller : Identity)
    (d : Dataset) :
    (commit server cs e .netFail = ⟨server, cs, .error .NetworkError⟩) ∧
    (commit server cs e .serverFail = ⟨server, cs, .error .ServerError⟩) ∧
    (cs.session.activeIdentity = some caller →
      findDataset server e.datasetId = some d → caller ∉ d.ownerSet →
      commit server cs e .ok
        = ⟨server, { cs with pending := none }, .error .ForbiddenError⟩) := by
  refine ⟨rfl, rfl, ?_⟩
  intro hid hfind hmem
  have hcd : commitOwnerDelta server caller e.datasetId e.additions e.removals
      = .error .ForbiddenError := by
    simp [commitOwnerDelta, hfind, hmem]
  simp [commit, hid, hcd, OwnerError.retryable]

/-- Witness for C5 at concrete inputs: `wBob`, not an owner of `wDataset`,
has a staged edit; a transport failure preserves the client state, and a
commit that reaches the registry is rejected with `ForbiddenError` and
discards the edit. -/
theorem commit_failure_edit_disposition_check :
    (commit wServer wClientBob wEdit .netFail
      = ⟨wServer, wClientBob, .error .NetworkError⟩) ∧
    (commit wServer wClientBob wEdit .ok
      = ⟨wServer, { wClientBob with pending := none },
          .error .ForbiddenError⟩) :=
  ⟨(commit_failure_edit_disposition wServer wClientBob wEdit wBob wDataset).1,
   (commit_failure_edit_disposition wServer wClientBob wEdit wBob
      wDataset).2.2 (by decide) (by decide) (by decide)⟩

/-- Claim C6: after `logout` followed by `login` as another identity in
the same browser context, no residual PendingOwnerEdit is visible: the
post-login state has `pending = none`, and it is independent of whatever
the previous identity had staged. -/
theorem logout_login_clears_staging (cs : ClientState) (b : Identity)
    (serverOk : Bool) (p : Option PendingOwnerEdit) :
    login ((logout cs serverOk).1) b true
      = .ok { session := { activeIdentity := some b,
                           credentialsPresent := true },
              cache := cs.cache, pending := none } ∧
    login ((logout { cs with pending := p } serverOk).1) b true
      = login ((logout cs serverOk).1) b true := by
  constructor <;> simp [login, logout]

/-- Claim C7: a dataset created by a registration action has the creating
identity as sole initial owner: its owner set is the singleton of the
creator, no other identity is a member, and the registry serves exactly
that snapshot for the new id. -/
theorem creator_sole_initial_owner (server : ServerState)
    (id name description : String) (creator : Identity) :
    (createDataset server id name description creator).2.ownerSet
      = {creator} ∧
    (∀ b : Identity, b ≠ creator →
        b ∉ (createDataset server id name description creator).2.ownerSet) ∧
    findDataset (createDataset server id name description creator).1 id
      = some (createDataset server id name description creator).2 := by
  refine ⟨rfl, ?_, ?_⟩
  · intro b hb
    simp [createDataset, hb]
  · simp [createDataset, findDataset]

/-- Witness for C7 at concrete inputs: `wAlice` creates a dataset and is
its sole owner; the registered non-owner `wBob` is not a member. -/
theorem creator_sole_initial_owner_check :
    (createDataset wServer ("d2") ("n2") ("x2") wAlice).2.ownerSet
      = {wAlice} ∧
    wBob ∉ (createDataset wServer ("d2") ("n2") ("x2") wAlice).2.ownerSet :=
  ⟨(creator_sole_initial_owner wServer ("d2") ("n2") ("x2") wAlice).1,
   (creator_sole_initial_owner wServer ("d2") ("n2") ("x2") wAlice).2.1
     wBob (by decide)⟩

/-- Claim C8: `logout` is idempotent — a second call leaves the same
client state as one call — and it always clears the local active identity,
credentials and staging, even when the server-side invalidation fails, in
which case the operation is reported as failed. -/
theorem logout_idempotent_always_local (cs : ClientState) (b b' : Bool) :
    (logout (logout cs b).1 b').1 = (logout cs b').1 ∧
    (logout cs b).1.session.activeIdentity = none ∧
    (logout cs b).1.session.credentialsPresent = false ∧
    (logout cs b).1.pending = none ∧
    (logout cs false).2 = false := by
  simp [logout]

/-- Claim C9: in the aggregated store the module keys `publicDandisets`
and `myDandisets` are bound to the same imported module object, so
everything registered under the one key (state fields, mutations,
actions) is identical to what is registered under the other. -/
theorem publicDandisets_myDandisets_same_module :
    lookupModule storeDefault ("publicDandisets")
      = lookupModule storeDefault ("myDandisets") ∧
    lookupModule storeDefault ("publicDandisets")
      = some ModuleObject.myDandisets := by
  decide

/-- Claim C10: the store aggregator's default export registers exactly
the four module keys `girder`, `publicDandisets`, `myDandisets` and
`stats`, in that order, and each of the three imported modules is
registered under its own name. -/
theorem store_modules_exactly_four :
    storeDefault.modules.map Prod.fst
      = ["girder", "publicDandisets", "myDandisets", "stats"] ∧
    lookupModule storeDefault ("girder") = some ModuleObject.girder ∧
    lookupModule storeDefault ("myDandisets") = some ModuleObject.myDandisets ∧
    lookupModule storeDefault ("stats") = some ModuleObject.stats := by
  decide

end DandiArchive
